import Mathlib

/-!
Verification of the asyncawait builder/pipeline/protocol core against its
natural-language specification.

The development shallowly embeds the repository's JavaScript source:
  * `src/asyncBuilder.js` — builder construction, `derive`, and the two
    suspendable-function synthesis strategies (slow, lines 97-121; fast,
    lines 123-201);
  * `src/UNIFY/async/patterns/iterable.cps.js` — the iterable protocol's
    coroutine subclass and its `AsyncIterator` (`next`, `forEach`).
JavaScript values are modelled by the inductive `JsVal`, thrown errors by
`Except` with error type `JsErr`.  The `pipeline`, `util` and base `Coro`
modules are not part of the provided sources; the few facts needed from
them are modelled from the spec and marked as such in their doc comments.
-/

namespace AsyncAwait

/-- A JavaScript value, as far as the claims need to distinguish values:
`undefined`, numbers, strings, and Error objects carrying a message. -/
inductive JsVal where
  | undef
  | num (n : Int)
  | str (s : String)
  | err (msg : String)
deriving DecidableEq, Repr

/-- A synchronously thrown JavaScript exception: `assert(...)` failures,
`throw new Error(msg)`, and the `RangeError` raised by
`new Array(negativeLength)`. -/
inductive JsErr where
  | assertionError (msg : String)
  | thrownError (msg : String)
  | rangeError
deriving DecidableEq, Repr

/-- An invokee: the user-supplied body of a suspendable function.  Its
declared parameter names give its arity (`function.length`); `fn` is the
value it computes from the argument list it is applied to. -/
structure Invokee where
  params : List String
  fn : List JsVal → JsVal

/-- How the synthesizer wrapped the invokee into the zero-argument body
handed to `pipeline.acquireCoro`:
  * `discardResult` — the slow strategy's wrapper `b1` (asyncBuilder.js
    lines 112-114), whose JavaScript source contains no `return`
    statement, so the wrapper's return value is `undefined`;
  * `returnResult` — the fast strategy's wrappers `b2`/`b3`/`b4`
    (lines 141-143, 159-160), which `return invokee(...)`. -/
inductive WrapKind where
  | discardResult
  | returnResult
deriving DecidableEq, Repr

/-- The zero-argument body bound to a coroutine: the invokee, the argument
list the synthesizer closed over, and the wrapper kind. -/
structure CoroBody where
  invokee : Invokee
  args : List JsVal
  wrapper : WrapKind

/-- Modelled from the spec: the coroutine primitive and `pipeline.js` are
not among the provided sources.  Per spec section 3, "`return(coro, value)`
— called when the body completes normally"; the value a coroutine reports
on completion is the return value of the bound body wrapper.  `runBody`
computes that return value: the slow wrapper `b1` contains no `return`
statement and so yields `undefined`; the fast wrappers return the
invokee's result. -/
def runBody (b : CoroBody) : JsVal :=
  match b.wrapper with
  | .discardResult => JsVal.undef
  | .returnResult => b.invokee.fn b.args

/-- A coroutine handle as produced by `pipeline.acquireCoro(protocol, body)`:
it records the body it was bound to.  (Pool reuse is not needed by the
claims under study.) -/
structure Coro where
  body : CoroBody

/-- A protocol, as the synthesizer consumes it: the declared parameter
names of its `invoke` operation (the first one is the coroutine handle)
and the behavior of `invoke`.  The remaining three operations
(`yield`/`return`/`throw`) are exercised only by the iterable example,
which is modelled operationally below. -/
structure ProtocolSig where
  invokeParams : List String
  invoke : Coro → List JsVal → JsVal

/-- A synthesized suspendable function: its reported arity
(`function.length`) and its call behavior on an argument list. -/
structure SuspendableFn where
  length : Nat
  call : List JsVal → Except JsErr JsVal

/-- JavaScript `arguments[i]`: reading past the end gives `undefined`. -/
def jsArg (args : List JsVal) (i : Nat) : JsVal :=
  args.getD i JsVal.undef

/-- The generic (slow) synthesis strategy, `createSuspendableFunctionSlow`
(asyncBuilder.js lines 97-121).  `invokerArgCount` is
`protocol.invoke.length - 1`; at call time the argument list is split
positionally: the leading `N - invokerArgCount` go to the invokee wrapper
`b1` (which discards the invokee's return value), the trailing ones are
copied into `invokerArgs[1..]`, `invokerArgs[0]` is the freshly acquired
coroutine, and `protocol.invoke.apply(null, invokerArgs)` is returned.
If `N - invokerArgCount` is negative, `new Array(invokeeArgCount)` throws
a `RangeError`.  The returned JavaScript function declares the single
parameter `$ARGS`, so its reported arity is `1`. -/
def createSuspendableFunctionSlow (protocol : ProtocolSig) (invokee : Invokee) :
    SuspendableFn :=
  { length := 1
    call := fun args =>
      let invokerArgCount : Int := (protocol.invokeParams.length : Int) - 1
      let invokeeArgCount : Int := (args.length : Int) - invokerArgCount
      if invokeeArgCount < 0 then Except.error JsErr.rangeError
      else
        let k := invokeeArgCount.toNat
        let invokeeArgs := (List.range k).map (jsArg args)
        let invokerArgs := (List.range invokerArgCount.toNat).map
          (fun j => jsArg args (k + j))
        Except.ok (protocol.invoke
          { body := { invokee := invokee, args := invokeeArgs,
                      wrapper := WrapKind.discardResult } }
          invokerArgs) }

/-- Call behavior of a fast-strategy suspendable function (the function
assembled by `createSuspendableFunctionFast`, asyncBuilder.js lines
123-201).  When the argument count equals the total declared parameter
count, the fast path binds the invokee's named parameters to the leading
arguments and passes the invoker's named parameters to `protocol.invoke`
after the coroutine; otherwise the generic marshaling path performs the
same positional split as the slow strategy.  In both paths the body
wrapper returns the invokee's result (`b2`/`b3`/`b4`). -/
def fastCallFn (protocol : ProtocolSig) (invokee : Invokee)
    (args : List JsVal) : Except JsErr JsVal :=
  let invokerParamNames := protocol.invokeParams.drop 1
  if args.length = invokee.params.length + invokerParamNames.length then
    Except.ok (protocol.invoke
      { body := { invokee := invokee, args := args.take invokee.params.length,
                  wrapper := WrapKind.returnResult } }
      (args.drop invokee.params.length))
  else
    let invokerArgCount : Int := (protocol.invokeParams.length : Int) - 1
    let invokeeArgCount : Int := (args.length : Int) - invokerArgCount
    if invokeeArgCount < 0 then Except.error JsErr.rangeError
    else
      let k := invokeeArgCount.toNat
      let invokeeArgs := (List.range k).map (jsArg args)
      let invokerArgs := (List.range invokerArgCount.toNat).map
        (fun j => jsArg args (k + j))
      Except.ok (protocol.invoke
        { body := { invokee := invokee, args := invokeeArgs,
                    wrapper := WrapKind.returnResult } }
        invokerArgs)

/-- The specialized (fast) synthesis strategy, `createSuspendableFunctionFast`
(asyncBuilder.js lines 123-201).  At synthesis time it scans the invokee's
parameter names in order and throws on the first one also found among the
invoker's parameter names (lines 175-180); otherwise it assembles a
function whose declared parameter list is the invokee's parameters
followed by the invoker's parameters (minus the leading coroutine
parameter), so its reported arity is the length of that concatenation
(lines 182-184, 194). -/
def createSuspendableFunctionFast (protocol : ProtocolSig) (invokee : Invokee) :
    Except JsErr SuspendableFn :=
  let invokerParamNames := protocol.invokeParams.drop 1
  match invokee.params.find? (fun n => invokerParamNames.contains n) with
  | some n => Except.error (JsErr.thrownError
      ("async builder: invoker and invokee both have a parameter named '"
        ++ n ++ "'"))
  | none => Except.ok
      { length := (invokee.params ++ invokerParamNames).length
        call := fastCallFn protocol invokee }

/-- Strategy selection (asyncBuilder.js line 95):
`createSuspendableFunction = _.DEBUG ? createSuspendableFunctionSlow :
createSuspendableFunctionFast`.  The slow strategy never fails at
synthesis time, so its result is wrapped in `.ok`. -/
def createSuspendableFunctionBy (debug : Bool) (protocol : ProtocolSig)
    (invokee : Invokee) : Except JsErr SuspendableFn :=
  if debug then Except.ok (createSuspendableFunctionSlow protocol invokee)
  else createSuspendableFunctionFast protocol invokee

/-! ## Pipeline lock and the builder function

`pipeline.js` is not among the provided sources; only the `isLocked` flag
is needed, and its writes are visible in `asyncBuilder.js` (line 30). -/

/-- Modelled from the spec: the `pipeline` module is not among the
provided sources.  Per spec section 3 the Pipeline owns "a boolean
`locked` flag"; the model also records the currently registered default
base protocol name so that registration attempts are observable. -/
structure PipelineState where
  isLocked : Bool
  defaultName : Option String
deriving DecidableEq, Repr

/-- An argument passed to a builder call: either a function (an invokee)
or some non-function value. -/
inductive BuilderArg where
  | func (invokee : Invokee)
  | notFunc (v : JsVal)

/-- The builder function returned by `createAsyncBuilder` (asyncBuilder.js
lines 28-38).  It first writes `pipeline.isLocked = true` (line 30), then
asserts that exactly one argument was supplied and that it is a function
(lines 33-34), and only then synthesizes a suspendable function for the
configured protocol (line 37; with `_.DEBUG` false the fast strategy is
used, line 95). -/
def builderCall (protocol : ProtocolSig) (ps : PipelineState)
    (args : List BuilderArg) : Except JsErr SuspendableFn × PipelineState :=
  let ps1 : PipelineState := { ps with isLocked := true }
  if args.length ≠ 1 then
    (Except.error (JsErr.assertionError "async builder: expected a single argument"), ps1)
  else
    match args with
    | [BuilderArg.func invokee] =>
        (createSuspendableFunctionFast protocol invokee, ps1)
    | _ =>
        (Except.error (JsErr.assertionError
          "async builder: expected argument to be a function"), ps1)

/-- Modelled from the spec: the top-level configuration mechanism
(`asyncawait.use(...)`, `config` module) is not among the provided
sources.  Per spec section 3, "Once `locked` becomes true ..., attempts to
register a new base protocol via the top-level configuration mechanism
must fail". -/
def useProtocol (ps : PipelineState) (name : String) :
    Except JsErr Unit × PipelineState :=
  if ps.isLocked then
    (Except.error (JsErr.thrownError
      "use: cannot register a protocol after a suspendable function has been created"), ps)
  else
    (Except.ok (), { ps with defaultName := some name })

/-- An operation acting on the shared Pipeline state: a builder call or a
registration attempt. -/
inductive PipeOp where
  | builderOp (protocol : ProtocolSig) (args : List BuilderArg)
  | useOp (name : String)

/-- One Pipeline-state transition. -/
def stepOp (ps : PipelineState) (op : PipeOp) : PipelineState :=
  match op with
  | .builderOp protocol args => (builderCall protocol ps args).2
  | .useOp name => (useProtocol ps name).2

/-- Run a sequence of Pipeline operations. -/
def runOps (ps : PipelineState) (ops : List PipeOp) : PipelineState :=
  ops.foldl stepOp ps

/-! ## Builders, configuration merging and `derive` -/

/-- A configuration value: an atomic value or a one-level nested map. -/
inductive OptVal where
  | atom (v : JsVal)
  | table (m : List (String × JsVal))
deriving DecidableEq, Repr

/-- A configuration map: an ordered association of keys to values. -/
def Options : Type := List (String × OptVal)

/-- The empty configuration map, `{}`. -/
def emptyOptions : Options := []

/-- Set one key in an association list, replacing an existing binding in
place or appending a fresh one. -/
def setKey {α : Type} : List (String × α) → String → α → List (String × α)
  | [], k, v => [(k, v)]
  | (k1, v1) :: rest, k, v =>
      if k1 = k then (k, v) :: rest else (k1, v1) :: setKey rest k v

/-- Modelled from the spec: the `util` module (`_.mergeProps`) is not
among the provided sources.  Per spec section 3, configurations are
"merged ... later keys overwrite earlier ones, nested maps are
recursively merged one level".  Each key of the override is merged into
the base; when both sides bind the key to a nested map, the maps are
merged key by key, otherwise the override's value replaces the base's. -/
def mergeProps (base override : Options) : Options :=
  override.foldl
    (fun acc kv =>
      match kv.2, acc.lookup kv.1 with
      | OptVal.table t2, some (OptVal.table t1) =>
          setKey acc kv.1 (OptVal.table (t2.foldl (fun m p => setKey m p.1 p.2) t1))
      | v, _ => setKey acc kv.1 v)
    base

/-- A protocol factory's result, merged over the base protocol
(asyncBuilder.js line 25: `_.mergeProps({}, baseProtocol,
protocolFactory(options, baseProtocol))`).  The factory may supply a
replacement `invoke` operation (with its parameter list) or inherit the
base's; the claims under study exercise only the `invoke` operation, the
other three being modelled operationally in the iterable section. -/
structure ProtocolPatch where
  invokeOverride : Option (List String × (Coro → List JsVal → JsVal))

/-- Merge a factory-produced patch over a base protocol: patch-provided
operations override base operations with matching names, others are
inherited. -/
def overlayProtocol (base : ProtocolSig) (patch : ProtocolPatch) : ProtocolSig :=
  match patch.invokeOverride with
  | some po => { invokeParams := po.1, invoke := po.2 }
  | none => base

/-- A protocol factory, as passed to `createAsyncBuilder`. -/
def ProtocolFactory : Type := Options → ProtocolSig → ProtocolPatch

/-- A Builder as constructed by `createAsyncBuilder` (asyncBuilder.js
lines 23-47): the synthesized protocol together with the factory, options
and base protocol it closed over (exposed as `builder.protocol`,
`builder.options`, and used by `derive`). -/
structure Builder where
  protocolFactory : ProtocolFactory
  options : Options
  baseProtocol : ProtocolSig
  protocol : ProtocolSig

/-- `createAsyncBuilder(protocolFactory, options, baseProtocol)`
(asyncBuilder.js lines 23-47): instantiates the protocol by merging the
factory's result over the base protocol and closes the builder over all
three inputs. -/
def createAsyncBuilder (factory : ProtocolFactory) (options : Options)
    (baseProtocol : ProtocolSig) : Builder :=
  { protocolFactory := factory
    options := options
    baseProtocol := baseProtocol
    protocol := overlayProtocol baseProtocol (factory options baseProtocol) }

/-- An argument passed to `derive`: a protocol factory or a configuration
map. -/
inductive DeriveArg where
  | factoryArg (f : ProtocolFactory)
  | optsArg (o : Options)

/-- The `derive` method (asyncBuilder.js lines 50-71).  With zero
arguments it fails; with a leading non-function argument it requires
exactly one argument and produces a new builder from the *same* factory
and base protocol with options = current options copied and merged with
the override; with a leading protocol factory it produces a new builder
from that factory whose base protocol is the *current* protocol and whose
options are a copy of the (optional) second argument only. -/
def derive (b : Builder) : List DeriveArg → Except JsErr Builder
  | [] => Except.error (JsErr.assertionError "derive(): expected at least one argument")
  | DeriveArg.optsArg o :: rest =>
      if rest.isEmpty then
        Except.ok (createAsyncBuilder b.protocolFactory
          (mergeProps (mergeProps emptyOptions b.options) o) b.baseProtocol)
      else
        Except.error (JsErr.assertionError "derive(): invalid argument combination")
  | DeriveArg.factoryArg f :: rest =>
      let override := match rest with
        | DeriveArg.optsArg o :: _ => o
        | _ => emptyOptions
      Except.ok (createAsyncBuilder f (mergeProps emptyOptions override) b.protocol)

/-! ## The iterable protocol example (`iterable.cps.js`)

The coroutine body of an iterable suspendable function is modelled by the
sequence of values it yields followed by its outcome (a normal return
value or a thrown error).  One `next(callback)` call — together with the
`setImmediate` turn it schedules — is modelled as one `invokeNext` step.
The base `Coro` class is not among the provided sources; its terminal
behavior (a body that has run to completion cannot be resumed again) is
modelled from spec sections 3 and 4.4. -/

/-- Progress of the underlying coroutine body: still resumable, completed
normally, or failed with a thrown error. -/
inductive FiberPhase where
  | active
  | completed
  | failed
deriving DecidableEq, Repr

/-- Decidable equality for body outcomes (`Except JsVal JsVal`). -/
instance : DecidableEq (Except JsVal JsVal) := fun a b =>
  match a, b with
  | Except.ok v, Except.ok w =>
      if h : v = w then isTrue (by rw [h]) else isFalse (by simp [h])
  | Except.error v, Except.error w =>
      if h : v = w then isTrue (by rw [h]) else isFalse (by simp [h])
  | Except.ok _, Except.error _ => isFalse (by simp)
  | Except.error _, Except.ok _ => isFalse (by simp)

/-- State of an `IterableCpsCoro` together with its wrapped body:
`pending` values the body has yet to yield, the body's `outcome`
(`.ok v` for a normal return, `.error e` for a throw), the base
coroutine's phase, and the subclass's `done` flag — which is set *only*
by `IterableCpsCoro.prototype.return` (iterable.cps.js line 31); neither
the constructor (lines 13-16) nor `throw` (lines 35-37) touches it. -/
structure IterState where
  pending : List JsVal
  outcome : Except JsVal JsVal
  phase : FiberPhase
  done : Bool
deriving DecidableEq, Repr

/-- A freshly invoked iterable coroutine: `invoke` (iterable.cps.js lines
17-20) returns the iterator without running any body code, so the body's
whole event sequence is still pending and `done` is unset. -/
def freshIter (yields : List JsVal) (outcome : Except JsVal JsVal) : IterState :=
  { pending := yields, outcome := outcome, phase := FiberPhase.active, done := false }

/-- What one `next` call delivers to the callback registered for it. -/
inductive NextSignal where
  | item (done : Bool) (value : JsVal)
  | errSig (e : JsVal)
deriving DecidableEq, Repr

/-- Outcome of one `next` call: either the registered callback is invoked
with a signal, or the coroutine machinery is misused and the callback is
never invoked. -/
inductive NextOutcome where
  | delivered (sig : NextSignal)
  | resumeDead
deriving DecidableEq, Repr

/-- The Error value `new Error('iterated past end')` (iterable.cps.js
line 26). -/
def pastEndError : JsVal := JsVal.err "iterated past end"

/-- One `next(callback)` call with its scheduled `setImmediate` turn
(`invokeNext`, iterable.cps.js lines 22-28), composed with the protocol
operations the resumed body triggers:
  * if `this.done` is set, the callback receives the "iterated past end"
    error and nothing else happens;
  * otherwise the coroutine is resumed: the body's next `yield` delivers
    `{done: false, value}` and suspends (lines 39-43); a normal return
    sets `done` and delivers `{done: true, value}` (lines 30-33); a throw
    delivers the error to the callback — *without* setting `done`
    (lines 35-37) — and leaves the body failed;
  * resuming a coroutine whose body already ran to completion is a
    contract violation of the (spec-modelled) coroutine primitive: per
    spec section 4.4 only a paused call stack can be resumed, so no
    signal reaches the callback. -/
def invokeNext (s : IterState) : NextOutcome × IterState :=
  if s.done then (NextOutcome.delivered (NextSignal.errSig pastEndError), s)
  else
    match s.phase with
    | FiberPhase.active =>
        match s.pending with
        | v :: rest =>
            (NextOutcome.delivered (NextSignal.item false v), { s with pending := rest })
        | [] =>
            match s.outcome with
            | Except.ok v =>
                (NextOutcome.delivered (NextSignal.item true v),
                  { s with phase := FiberPhase.completed, done := true })
            | Except.error e =>
                (NextOutcome.delivered (NextSignal.errSig e),
                  { s with phase := FiberPhase.failed })
    | _ => (NextOutcome.resumeDead, s)

/-- Call `next` repeatedly, `n` times, collecting each call's outcome. -/
def driveN (s : IterState) : Nat → List NextOutcome × IterState
  | 0 => ([], s)
  | n + 1 =>
      let first := invokeNext s
      let rest := driveN first.2 n
      (first.1 :: rest.1, rest.2)

/-- An event observable through `forEach(callback, done)`: a per-value
`callback` invocation, or the single `done` invocation with either the
final value (`done(null, value)`) or an error (`done(err)`). -/
inductive FEEvent where
  | value (v : JsVal)
  | doneOk (v : JsVal)
  | doneErr (e : JsVal)
deriving DecidableEq, Repr

/-- The driving loop of `AsyncIterator.prototype.forEach`
(iterable.cps.js lines 55-77): `stepNext` issues one `next`; its callback
routes an error to `done(err)`, a terminal item to `done(null, value)`,
and a non-terminal item to `callback(value)` followed by a
`setImmediate(stepNext)`.  Once `done` has fired no further step is
scheduled.  The fuel counts the remaining `next` calls the loop may
issue; should the coroutine machinery stall (a dead resume delivers
nothing), the loop hangs with no further events. -/
def forEachLoop (s : IterState) : Nat → List FEEvent
  | 0 => []
  | n + 1 =>
      match invokeNext s with
      | (NextOutcome.delivered (NextSignal.item false v), s1) =>
          FEEvent.value v :: forEachLoop s1 n
      | (NextOutcome.delivered (NextSignal.item true v), _) => [FEEvent.doneOk v]
      | (NextOutcome.delivered (NextSignal.errSig e), _) => [FEEvent.doneErr e]
      | (NextOutcome.resumeDead, _) => []

/-- The full event sequence `forEach` produces on a freshly invoked
iterable coroutine: one `next` per pending value plus one for the
terminal outcome. -/
def forEachEvents (s : IterState) : List FEEvent :=
  forEachLoop s (s.pending.length + 1)

/-- The delivery event that carries the body's terminal outcome out to
the consumer: `{done: true, value}` for a normal return, the thrown error
for a throw. -/
def outcomeEvent (outcome : Except JsVal JsVal) : NextOutcome :=
  match outcome with
  | Except.ok v => NextOutcome.delivered (NextSignal.item true v)
  | Except.error e => NextOutcome.delivered (NextSignal.errSig e)

/-- The event every `next` call after the terminal one produces: the
"iterated past end" delivery after a normal return (the `done` flag is
set), a dead resume after a throw (the flag is not set). -/
def trailingEvent (outcome : Except JsVal JsVal) : NextOutcome :=
  match outcome with
  | Except.ok _ => NextOutcome.delivered (NextSignal.errSig pastEndError)
  | Except.error _ => NextOutcome.resumeDead

/-- The outcome sequence of `n` successive `next` calls on a fresh
iterable coroutine, as the code produces it: the yielded values in order,
then (once the body is exhausted) the terminal outcome exactly once, then
only trailing events. -/
def expectedDrive (yields : List JsVal) (outcome : Except JsVal JsVal)
    (n : Nat) : List NextOutcome :=
  if n ≤ yields.length then
    (yields.take n).map (fun v => NextOutcome.delivered (NextSignal.item false v))
  else
    yields.map (fun v => NextOutcome.delivered (NextSignal.item false v))
      ++ outcomeEvent outcome
      :: List.replicate (n - yields.length - 1) (trailingEvent outcome)

/-- Number of times a given `next`-call outcome occurs in a trace. -/
def countNextOutcome (e : NextOutcome) (tr : List NextOutcome) : Nat :=
  tr.countP (fun x => decide (x = e))

/-- The `done` event `forEach` fires for a given body outcome:
`done(null, value)` after a normal return, `done(err)` after a throw. -/
def doneEvent (outcome : Except JsVal JsVal) : FEEvent :=
  match outcome with
  | Except.ok v => FEEvent.doneOk v
  | Except.error e => FEEvent.doneErr e

/-! ## Concrete fixtures used by witnesses and counterexamples -/

/-- A result-delivering protocol whose `invoke` runs the coroutine body to
completion and returns the value the body reports — the observable
relevant to comparing the two synthesis strategies. -/
def resultProtocol : ProtocolSig :=
  { invokeParams := ["co"], invoke := fun co _ => runBody co.body }

/-- An invokee with no parameters whose body returns the string `'done'`
(as in the spec's worked example, spec section 8). -/
def constDone : Invokee :=
  { params := [], fn := fun _ => JsVal.str "done" }

/-- A protocol whose `invoke` takes a callback after the coroutine handle
(the cps flavor); `invoke` returns the body's reported value. -/
def cbProtocol : ProtocolSig :=
  { invokeParams := ["co", "callback"], invoke := fun co _ => runBody co.body }

/-- A one-parameter invokee returning its argument. -/
def addInvokee : Invokee :=
  { params := ["x"], fn := fun a => jsArg a 0 }

/-- The fast-strategy suspendable function synthesized for `cbProtocol`
and `addInvokee`. -/
def fastAddFn : SuspendableFn :=
  { length := 2, call := fastCallFn cbProtocol addInvokee }

/-- A protocol whose `invoke` declares a parameter named `n` after the
coroutine handle. -/
def conflictProtocol : ProtocolSig :=
  { invokeParams := ["co", "n"], invoke := fun co _ => runBody co.body }

/-- An invokee that also declares a parameter named `n`. -/
def conflictInvokee : Invokee :=
  { params := ["n"], fn := fun a => jsArg a 0 }

/-- A fresh iterable coroutine over a body that throws immediately. -/
def boomState : IterState :=
  freshIter [] (Except.error (JsVal.err "boom"))

/-- An iterable coroutine whose body has returned normally: `return` set
the `done` flag. -/
def completedState : IterState :=
  { pending := [], outcome := Except.ok (JsVal.str "done"),
    phase := FiberPhase.completed, done := true }

/-- An unlocked Pipeline with no registered default protocol. -/
def freshPipeline : PipelineState :=
  { isLocked := false, defaultName := none }

/-- Whether a builder argument list passes the builder's two assertions:
exactly one argument, and that argument a function (asyncBuilder.js
lines 33-34). -/
def validBuilderArgs : List BuilderArg → Bool
  | [BuilderArg.func _] => true
  | _ => false

/-! ## Theorems -/

/-- C1: the generic (slow) and specialized (fast) synthesis strategies are
NOT observably equivalent.  The slow strategy's body wrapper `b1`
(asyncBuilder.js lines 112-114) contains no `return` statement, so the
value the coroutine reports on completion is `undefined` no matter what
the invokee returns, while the fast strategy's wrappers return the
invokee's result.  Evaluating both at the failing input — an invokee
returning `'done'` under a result-delivering protocol — exhibits the
divergence: `undefined` versus `'done'`. -/
theorem c1_slow_fast_divergence :
    (createSuspendableFunctionSlow resultProtocol constDone).call [] =
      Except.ok JsVal.undef
    ∧ (∃ f, createSuspendableFunctionFast resultProtocol constDone = Except.ok f
        ∧ f.call [] = Except.ok (JsVal.str "done"))
    ∧ (Except.ok JsVal.undef : Except JsErr JsVal) ≠ Except.ok (JsVal.str "done") := by
  refine ⟨rfl, ⟨_, rfl, rfl⟩, by simp⟩

/-- C2 counterexample: the claim "once the coroutine has reached any
terminal state (Completed or Failed), every subsequent `next` delivers an
'iterated past end' error" is false for the Failed state.  A body that
throws immediately leaves the coroutine Failed, yet the `done` flag is
unset — `IterableCpsCoro.prototype.throw` (iterable.cps.js lines 35-37)
never sets it — so the following `next` attempts to resume the dead
coroutine instead of delivering "iterated past end". -/
theorem c2_counterexample :
    (invokeNext boomState).1 =
      NextOutcome.delivered (NextSignal.errSig (JsVal.err "boom"))
    ∧ (invokeNext boomState).2.phase = FiberPhase.failed
    ∧ (invokeNext (invokeNext boomState).2).1 = NextOutcome.resumeDead
    ∧ NextOutcome.resumeDead ≠
        NextOutcome.delivered (NextSignal.errSig pastEndError) := by
  refine ⟨rfl, rfl, rfl, by decide⟩

/-- C2 amended: after the coroutine has Completed (the body returned
normally, which sets the `done` flag), every subsequent `next` delivers
the "iterated past end" error; after the coroutine has Failed (the body
threw), the `done` flag is still unset and `next` instead attempts to
resume the dead coroutine, so no "iterated past end" error is
delivered. -/
theorem c2_next_after_terminal (s : IterState) :
    (s.done = true →
      invokeNext s = (NextOutcome.delivered (NextSignal.errSig pastEndError), s))
    ∧ (s.phase = FiberPhase.failed → s.done = false →
      (invokeNext s).1 = NextOutcome.resumeDead) := by
  constructor
  · intro h
    simp [invokeNext, h]
  · intro hp hd
    simp [invokeNext, hd, hp]

/-- C2 witness: the amended statement at concrete states — a completed
coroutine (flag set by `return`) and the failed coroutine left behind by
an immediately-throwing body. -/
theorem c2_next_after_terminal_witness :
    completedState.done = true
    ∧ invokeNext completedState =
        (NextOutcome.delivered (NextSignal.errSig pastEndError), completedState)
    ∧ (invokeNext boomState).2.phase = FiberPhase.failed
    ∧ (invokeNext boomState).2.done = false
    ∧ (invokeNext (invokeNext boomState).2).1 = NextOutcome.resumeDead :=
  ⟨rfl, (c2_next_after_terminal completedState).1 rfl, rfl, rfl,
    (c2_next_after_terminal (invokeNext boomState).2).2 rfl rfl⟩

/-- C4: `derive` with a single configuration map returns a new Builder
with the same protocol factory and base protocol whose configuration is
the current configuration (copied) merged with the override; `derive`
with a new protocol factory (with or without a configuration map) returns
a new Builder whose base protocol is the current Builder's synthesized
Protocol and whose configuration is a copy of the override alone, not
merged with the prior configuration.  The current Builder is a pure
value, so it is unchanged by construction. -/
theorem c4_derive_cases :
    (∀ (b : Builder) (o : Options),
      derive b [DeriveArg.optsArg o] =
        Except.ok (createAsyncBuilder b.protocolFactory
          (mergeProps (mergeProps emptyOptions b.options) o) b.baseProtocol))
    ∧ (∀ (b : Builder) (f : ProtocolFactory),
      derive b [DeriveArg.factoryArg f] =
        Except.ok (createAsyncBuilder f (mergeProps emptyOptions emptyOptions)
          b.protocol))
    ∧ (∀ (b : Builder) (f : ProtocolFactory) (o : Options),
      derive b [DeriveArg.factoryArg f, DeriveArg.optsArg o] =
        Except.ok (createAsyncBuilder f (mergeProps emptyOptions o) b.protocol)) :=
  ⟨fun _ _ => rfl, fun _ _ => rfl, fun _ _ _ => rfl⟩

/-- C5 counterexample: the claim that a shared invokee/invoker parameter
name makes synthesis fail "under both synthesis strategies" is false.
For the pair (`conflictProtocol`, `conflictInvokee`), which share the
parameter name `n`, the generic (slow) strategy — selected by the debug
flag — synthesizes a suspendable function without any error: it never
inspects parameter names. -/
theorem c5_counterexample :
    ("n" ∈ conflictInvokee.params ∧ "n" ∈ conflictProtocol.invokeParams.drop 1)
    ∧ ∃ f, createSuspendableFunctionBy true conflictProtocol conflictInvokee =
        Except.ok f :=
  ⟨⟨by decide, by decide⟩, ⟨_, rfl⟩⟩

/-- C5 amended: only the specialized (fast) strategy detects a shared
invokee/invoker parameter name, failing at synthesis time before any call
occurs (asyncBuilder.js lines 175-180); the generic (slow) strategy never
fails at synthesis time, whatever the parameter names. -/
theorem c5_conflict_check_fast_only :
    (∀ (p : ProtocolSig) (invokee : Invokee) (n : String),
      n ∈ invokee.params → n ∈ p.invokeParams.drop 1 →
      ∃ e, createSuspendableFunctionFast p invokee = Except.error e)
    ∧ (∀ (p : ProtocolSig) (invokee : Invokee),
      ∃ f, createSuspendableFunctionBy true p invokee = Except.ok f) := by
  constructor
  · intro p invokee n hn hinv
    rcases hf : invokee.params.find?
        (fun m => (p.invokeParams.drop 1).contains m) with _ | m
    · exfalso
      have hnone := List.find?_eq_none.mp hf n hn
      exact hnone (List.elem_eq_true_of_mem hinv)
    · exact ⟨JsErr.thrownError
        ("async builder: invoker and invokee both have a parameter named '"
          ++ m ++ "'"),
        by simp only [createSuspendableFunctionFast, hf]⟩
  · intro p invokee
    exact ⟨_, rfl⟩

/-- C5 witness: the amended statement at the concrete conflicting pair —
fast synthesis fails there with the naming-conflict error. -/
theorem c5_conflict_check_fast_only_witness :
    ("n" ∈ conflictInvokee.params)
    ∧ ("n" ∈ conflictProtocol.invokeParams.drop 1)
    ∧ createSuspendableFunctionFast conflictProtocol conflictInvokee =
        Except.error (JsErr.thrownError
          "async builder: invoker and invokee both have a parameter named 'n'") := by
  refine ⟨by decide, by decide, ?_⟩
  obtain ⟨e, he⟩ := c5_conflict_check_fast_only.1 conflictProtocol conflictInvokee
    "n" (by decide) (by decide)
  exact rfl

/-- The builder function writes the Pipeline lock in every branch: the
assignment `pipeline.isLocked = true` (asyncBuilder.js line 30) precedes
both assertions and the synthesis call. -/
theorem builderCall_locks (p : ProtocolSig) (ps : PipelineState)
    (args : List BuilderArg) : ((builderCall p ps args).2).isLocked = true := by
  unfold builderCall
  split
  · rfl
  · split <;> rfl

/-- Every modelled Pipeline operation preserves a set lock: builder calls
re-write it to true, and registration attempts never write it. -/
theorem stepOp_preserves_lock (ps : PipelineState) (op : PipeOp)
    (h : ps.isLocked = true) : (stepOp ps op).isLocked = true := by
  cases op with
  | builderOp p args => exact builderCall_locks p ps args
  | useOp name =>
      unfold stepOp useProtocol
      rw [h]
      exact h

/-- A set lock survives any sequence of Pipeline operations. -/
theorem runOps_preserves_lock (ops : List PipeOp) (ps : PipelineState)
    (h : ps.isLocked = true) : (runOps ps ops).isLocked = true := by
  induction ops generalizing ps with
  | nil => exact h
  | cons op rest ih => exact ih (stepOp ps op) (stepOp_preserves_lock ps op h)

/-- C6: invoking any Builder to synthesize a suspendable function sets
the shared Pipeline's `locked` flag; no modelled Pipeline operation ever
clears it afterwards; and once it is set, every attempt to register a new
default base protocol fails. -/
theorem c6_lock_is_irreversible (p : ProtocolSig) (ps : PipelineState)
    (args : List BuilderArg) (ops : List PipeOp) (name : String) :
    ((builderCall p ps args).2).isLocked = true
    ∧ (runOps (builderCall p ps args).2 ops).isLocked = true
    ∧ ∃ e, (useProtocol (runOps (builderCall p ps args).2 ops) name).1 =
        Except.error e := by
  have h1 := builderCall_locks p ps args
  have h2 := runOps_preserves_lock ops (builderCall p ps args).2 h1
  refine ⟨h1, h2, ⟨JsErr.thrownError
    "use: cannot register a protocol after a suspendable function has been created", ?_⟩⟩
  simp [useProtocol, h2]

/-- C7: a suspendable function produced by the specialized (fast)
strategy reports as its arity the invokee's declared parameter count plus
the arity of `Protocol.invoke` minus one (the protocol-reserved leading
coroutine-handle parameter). -/
theorem c7_fast_arity (p : ProtocolSig) (invokee : Invokee)
    (f : SuspendableFn)
    (hok : createSuspendableFunctionFast p invokee = Except.ok f)
    (harity : 1 ≤ p.invokeParams.length) :
    f.length = invokee.params.length + (p.invokeParams.length - 1) := by
  rcases hf : invokee.params.find?
      (fun m => (p.invokeParams.drop 1).contains m) with _ | m
  · simp only [createSuspendableFunctionFast, hf, Except.ok.injEq] at hok
    rw [← hok]
    simp [List.length_append, List.length_drop]
  · simp only [createSuspendableFunctionFast, hf] at hok
    exact Except.noConfusion hok

/-- C7 witness: the fast-strategy function for the two-parameter cps
protocol and a one-parameter invokee reports arity `1 + (2 - 1) = 2`. -/
theorem c7_fast_arity_witness :
    createSuspendableFunctionFast cbProtocol addInvokee = Except.ok fastAddFn
    ∧ 1 ≤ cbProtocol.invokeParams.length
    ∧ fastAddFn.length =
        addInvokee.params.length + (cbProtocol.invokeParams.length - 1) :=
  ⟨rfl, by decide, c7_fast_arity cbProtocol addInvokee fastAddFn rfl (by decide)⟩

/-- C10: a builder call with an invalid argument list (argument count
other than one, or a non-function argument) raises a usage error, yet the
Pipeline's `locked` flag is still set to true, because the lock write
(asyncBuilder.js line 30) precedes the argument assertions (lines
33-34). -/
theorem c10_lock_even_on_usage_error (p : ProtocolSig) (ps : PipelineState)
    (args : List BuilderArg) :
    ((builderCall p ps args).2).isLocked = true
    ∧ (validBuilderArgs args = false →
        ∃ e, (builderCall p ps args).1 = Except.error e) := by
  refine ⟨builderCall_locks p ps args, ?_⟩
  intro hinvalid
  match args with
  | [] => exact ⟨_, rfl⟩
  | [BuilderArg.func i] => simp [validBuilderArgs] at hinvalid
  | [BuilderArg.notFunc v] => exact ⟨_, rfl⟩
  | a :: b :: rest =>
      have hlen : (a :: b :: rest).length ≠ 1 := by simp
      simp only [builderCall, if_pos hlen]
      exact ⟨_, rfl⟩

/-- C10 witness: calling a builder with zero arguments on an unlocked
Pipeline raises the usage error and leaves the Pipeline locked. -/
theorem c10_lock_even_on_usage_error_witness :
    freshPipeline.isLocked = false
    ∧ validBuilderArgs [] = false
    ∧ ((builderCall resultProtocol freshPipeline []).2).isLocked = true
    ∧ (builderCall resultProtocol freshPipeline []).1 =
        Except.error (JsErr.assertionError "async builder: expected a single argument") := by
  refine ⟨rfl, rfl,
    (c10_lock_even_on_usage_error resultProtocol freshPipeline []).1, ?_⟩
  obtain ⟨e, he⟩ :=
    (c10_lock_even_on_usage_error resultProtocol freshPipeline []).2 rfl
  exact rfl

/-- Copying the leading `k` JavaScript arguments (`arguments[0..k-1]`)
yields the first `k` elements of the argument list. -/
theorem range_map_jsArg_take (args : List JsVal) (k : Nat)
    (h : k ≤ args.length) : (List.range k).map (jsArg args) = args.take k := by
  apply List.ext_getElem
  · simp [h, Nat.min_eq_left]
  · intro i h1 h2
    simp only [List.getElem_map, List.getElem_range, List.getElem_take]
    have hi : i < args.length := by
      simp at h1
      omega
    simp [jsArg, List.getD_eq_getElem, hi]

/-- Copying the `c` JavaScript arguments starting at position `k`
(`arguments[k..k+c-1]`) yields the suffix of the argument list after its
first `k` elements. -/
theorem range_map_jsArg_drop (args : List JsVal) (k c : Nat)
    (h : k + c = args.length) :
    (List.range c).map (fun j => jsArg args (k + j)) = args.drop k := by
  apply List.ext_getElem
  · simp
    omega
  · intro i h1 h2
    simp only [List.getElem_map, List.getElem_range, List.getElem_drop]
    have hi : k + i < args.length := by
      simp at h1
      omega
    simp [jsArg, List.getD_eq_getElem, hi]

/-- C3: for the generic (slow) strategy, `invokerArgCount` is the arity
of `Protocol.invoke` minus one; a call with `N` arguments forwards the
leading `N - invokerArgCount` arguments to the invokee body bound into
the acquired coroutine, passes the trailing `invokerArgCount` arguments
to `Protocol.invoke` after the coroutine handle, and returns
`Protocol.invoke`'s result verbatim. -/
theorem c3_slow_argument_split (p : ProtocolSig) (invokee : Invokee)
    (args : List JsVal) (harity : 1 ≤ p.invokeParams.length)
    (hlen : p.invokeParams.length - 1 ≤ args.length) :
    (createSuspendableFunctionSlow p invokee).call args =
      Except.ok (p.invoke
        { body := { invokee := invokee,
                    args := args.take (args.length - (p.invokeParams.length - 1)),
                    wrapper := WrapKind.discardResult } }
        (args.drop (args.length - (p.invokeParams.length - 1)))) := by
  have hneg : ¬ ((args.length : Int) - ((p.invokeParams.length : Int) - 1) < 0) := by
    omega
  have hk : ((args.length : Int) - ((p.invokeParams.length : Int) - 1)).toNat =
      args.length - (p.invokeParams.length - 1) := by
    omega
  have hc : (((p.invokeParams.length : Int)) - 1).toNat =
      p.invokeParams.length - 1 := by
    omega
  simp only [createSuspendableFunctionSlow, if_neg hneg, hk, hc]
  rw [range_map_jsArg_take args _ (by omega),
    range_map_jsArg_drop args _ _ (by omega)]

/-- C3 witness: the split at a concrete call — the two-parameter cps
protocol (`invokerArgCount = 1`) and a one-parameter invokee called with
two arguments: the first argument goes to the body, the second to
`Protocol.invoke` after the coroutine handle. -/
theorem c3_slow_argument_split_witness :
    1 ≤ cbProtocol.invokeParams.length
    ∧ cbProtocol.invokeParams.length - 1 ≤ [JsVal.num 1, JsVal.num 2].length
    ∧ (createSuspendableFunctionSlow cbProtocol addInvokee).call
        [JsVal.num 1, JsVal.num 2] =
      Except.ok (cbProtocol.invoke
        { body := { invokee := addInvokee,
                    args := [JsVal.num 1, JsVal.num 2].take
                      ([JsVal.num 1, JsVal.num 2].length -
                        (cbProtocol.invokeParams.length - 1)),
                    wrapper := WrapKind.discardResult } }
        ([JsVal.num 1, JsVal.num 2].drop
          ([JsVal.num 1, JsVal.num 2].length -
            (cbProtocol.invokeParams.length - 1)))) :=
  ⟨by decide, by decide,
    c3_slow_argument_split cbProtocol addInvokee [JsVal.num 1, JsVal.num 2]
      (by decide) (by decide)⟩

/-- With enough fuel (more `next` calls available than pending yields),
the `forEach` driving loop on a fresh iterable coroutine emits one
`callback` event per yielded value, in yield order, and then the single
`done` event. -/
theorem forEachLoop_fresh (yields : List JsVal) (outcome : Except JsVal JsVal)
    (fuel : Nat) (h : yields.length < fuel) :
    forEachLoop (freshIter yields outcome) fuel =
      yields.map FEEvent.value ++ [doneEvent outcome] := by
  induction yields generalizing fuel with
  | nil =>
      cases fuel with
      | zero => omega
      | succ m =>
          cases outcome <;>
            simp [forEachLoop, invokeNext, freshIter, doneEvent]
  | cons y rest ih =>
      cases fuel with
      | zero => omega
      | succ m =>
          have hm : rest.length < m := by
            simp at h
            omega
          rw [show forEachLoop (freshIter (y :: rest) outcome) (m + 1) =
              FEEvent.value y :: forEachLoop (freshIter rest outcome) m from rfl]
          simp [ih m hm]

/-- C8: `forEach` on a freshly invoked iterable coroutine invokes its
per-value callback exactly once per yielded value in yield order, then
fires `done` exactly once — with the body's return value after a normal
return, with the error after a throw — and emits nothing after `done`.
In particular, on the spec's example body yielding 111, 222, 333, 444 and
returning `'done'`, the callback collects exactly those four values
before `done` fires once with `'done'`. -/
theorem c8_forEach_events :
    (∀ (yields : List JsVal) (v : JsVal),
      forEachEvents (freshIter yields (Except.ok v)) =
        yields.map FEEvent.value ++ [FEEvent.doneOk v])
    ∧ (∀ (yields : List JsVal) (e : JsVal),
      forEachEvents (freshIter yields (Except.error e)) =
        yields.map FEEvent.value ++ [FEEvent.doneErr e])
    ∧ forEachEvents (freshIter
        [JsVal.num 111, JsVal.num 222, JsVal.num 333, JsVal.num 444]
        (Except.ok (JsVal.str "done"))) =
      [FEEvent.value (JsVal.num 111), FEEvent.value (JsVal.num 222),
        FEEvent.value (JsVal.num 333), FEEvent.value (JsVal.num 444),
        FEEvent.doneOk (JsVal.str "done")] := by
  refine ⟨?_, ?_, by decide⟩
  · intro yields v
    exact forEachLoop_fresh yields (Except.ok v) (yields.length + 1) (by omega)
  · intro yields e
    exact forEachLoop_fresh yields (Except.error e) (yields.length + 1) (by omega)

/-- Once the iterable coroutine's `done` flag is set, every further
`next` call delivers the "iterated past end" error and changes
nothing. -/
theorem driveN_done (n : Nat) (s : IterState) (h : s.done = true) :
    driveN s n =
      (List.replicate n (NextOutcome.delivered (NextSignal.errSig pastEndError)), s) := by
  induction n with
  | zero => rfl
  | succ m ih =>
      simp only [driveN, invokeNext, h, if_pos]
      simp [ih, List.replicate_succ]

/-- Once the body has thrown (and the `done` flag was never set), every
further `next` call attempts to resume the dead coroutine and delivers
nothing. -/
theorem driveN_failed (n : Nat) (s : IterState) (hd : s.done = false)
    (hp : s.phase = FiberPhase.failed) :
    driveN s n = (List.replicate n NextOutcome.resumeDead, s) := by
  induction n with
  | zero => rfl
  | succ m ih =>
      simp only [driveN, invokeNext, hd, hp]
      simp [ih, List.replicate_succ]

/-- Unfolding one `next` call from a drive of `n + 1` calls. -/
theorem driveN_succ (s : IterState) (n : Nat) :
    (driveN s (n + 1)).1 = (invokeNext s).1 :: (driveN (invokeNext s).2 n).1 := rfl

/-- The first `next` on a fresh coroutine with no yields and a normally
returning body delivers the terminal item and sets the `done` flag. -/
theorem invokeNext_fresh_nil_ok (v : JsVal) :
    invokeNext (freshIter [] (Except.ok v)) =
      (NextOutcome.delivered (NextSignal.item true v),
        { pending := [], outcome := Except.ok v, phase := FiberPhase.completed, done := true }) := rfl

/-- The first `next` on a fresh coroutine with no yields and a throwing
body delivers the error and leaves the `done` flag unset. -/
theorem invokeNext_fresh_nil_error (e : JsVal) :
    invokeNext (freshIter [] (Except.error e)) =
      (NextOutcome.delivered (NextSignal.errSig e),
        { pending := [], outcome := Except.error e, phase := FiberPhase.failed, done := false }) := rfl

/-- A `next` on a fresh coroutine with pending yields delivers the first
yielded value and leaves the remaining yields pending. -/
theorem invokeNext_fresh_cons (y : JsVal) (rest : List JsVal)
    (outcome : Except JsVal JsVal) :
    invokeNext (freshIter (y :: rest) outcome) =
      (NextOutcome.delivered (NextSignal.item false y), freshIter rest outcome) := rfl

/-- The outcome trace of `n` successive `next` calls on a fresh iterable
coroutine is exactly `expectedDrive`: the yields in order, then the
terminal outcome once, then only trailing events. -/
theorem driveN_fresh (yields : List JsVal) (outcome : Except JsVal JsVal)
    (n : Nat) :
    (driveN (freshIter yields outcome) n).1 = expectedDrive yields outcome n := by
  induction yields generalizing n with
  | nil =>
      cases n with
      | zero => simp [driveN, expectedDrive]
      | succ m =>
          cases outcome with
          | ok v =>
              rw [driveN_succ, invokeNext_fresh_nil_ok]
              rw [driveN_done m _ rfl]
              simp [expectedDrive, outcomeEvent, trailingEvent]
          | error e =>
              rw [driveN_succ, invokeNext_fresh_nil_error]
              rw [driveN_failed m _ rfl rfl]
              simp [expectedDrive, outcomeEvent, trailingEvent]
  | cons y rest ih =>
      cases n with
      | zero => simp [driveN, expectedDrive]
      | succ m =>
          rw [driveN_succ, invokeNext_fresh_cons]
          rw [ih m]
          simp only [expectedDrive]
          by_cases hm : m ≤ rest.length
          · rw [if_pos hm, if_pos (by simp; omega)]
            simp [List.take_succ_cons]
          · rw [if_neg hm, if_neg (by simp; omega)]
            simp only [List.map_cons, List.cons_append, List.cons.injEq, true_and]
            have hsub : m - rest.length - 1 = m + 1 - (rest.length + 1) - 1 := by omega
            rw [hsub]
            simp

/-- The terminal-outcome delivery never coincides with a yield delivery,
a past-end delivery after a normal return, or a dead resume after a
throw; hence it occurs in `expectedDrive` exactly once as soon as the
drive is long enough to exhaust the yields, and never before. -/
theorem countNextOutcome_expectedDrive (yields : List JsVal)
    (outcome : Except JsVal JsVal) (n : Nat) :
    countNextOutcome (outcomeEvent outcome) (expectedDrive yields outcome n) =
      if yields.length < n then 1 else 0 := by
  unfold expectedDrive countNextOutcome
  by_cases h : n ≤ yields.length
  · rw [if_pos h, if_neg (by omega)]
    rw [List.countP_eq_zero]
    intro a ha
    obtain ⟨v, _, hv⟩ := List.mem_map.mp ha
    rw [← hv]
    cases outcome <;> simp [outcomeEvent]
  · rw [if_neg h, if_pos (by omega)]
    rw [List.countP_append, List.countP_cons]
    have h0 : (yields.map
        (fun v => NextOutcome.delivered (NextSignal.item false v))).countP
          (fun x => decide (x = outcomeEvent outcome)) = 0 := by
      rw [List.countP_eq_zero]
      intro a ha
      obtain ⟨v, _, hv⟩ := List.mem_map.mp ha
      rw [← hv]
      cases outcome <;> simp [outcomeEvent]
    have h1 : (List.replicate (n - yields.length - 1)
        (trailingEvent outcome)).countP
          (fun x => decide (x = outcomeEvent outcome)) = 0 := by
      rw [List.countP_eq_zero]
      intro a ha
      rw [(List.mem_replicate.mp ha).2]
      cases outcome <;> simp [outcomeEvent, trailingEvent, pastEndError]
    rw [h0, h1]
    simp

/-- C9: on the iterable protocol, the body's terminal outcome — the
`{done: true, value}` item after a normal return, the thrown error after
a throw — is delivered to the callback registered for the `next` call
that observes it exactly once, however many `next` calls are made: the
trace of any `n` calls contains the outcome delivery exactly once if the
drive reaches the terminal state, and never a second time.  Omitted
optional callbacks are replaced by `nullFunc` (iterable.cps.js lines
51-53 and 63-64), so the registered delivery mechanism is invoked all the
same. -/
theorem c9_outcome_delivered_exactly_once (yields : List JsVal)
    (outcome : Except JsVal JsVal) (n : Nat) :
    (driveN (freshIter yields outcome) n).1 = expectedDrive yields outcome n
    ∧ countNextOutcome (outcomeEvent outcome)
        ((driveN (freshIter yields outcome) n).1) =
      if yields.length < n then 1 else 0 := by
  refine ⟨driveN_fresh yields outcome n, ?_⟩
  rw [driveN_fresh yields outcome n]
  exact countNextOutcome_expectedDrive yields outcome n

end AsyncAwait

